import Mathlib

/-!
Verification of `scripts/make_apple_touch_icon.py`.

The script is a one-shot generator of a flower icon: a polar-to-Cartesian
converter `polar`, a petal path builder `make_petal_path`, an HSL-to-hex
color converter `hsl_to_hex`, and a driver `main` that assembles an SVG
document and either rasterizes it or writes the SVG as a fallback.

Embedding conventions:
* geometry (`polar`, petal paths, the driver's coordinates) is embedded over
  the real numbers, with `Real.cos` / `Real.sin` standing for the float trig
  of the source, so trigonometric identities hold exactly;
* the color converter is embedded over the rationals, which represents the
  source's float arithmetic exactly on the inputs of interest; Python's
  `round` (banker's rounding, half to even) is modelled by `pyRound`;
* a petal path string `M cx cy C c1x c1y c2x c2y cx cy` is represented by
  the structure `PetalPath` holding the eight numbers in order, since the
  decimal rendering of the floats is immaterial to the claims;
* the SVG document built by `main` is represented by the structure `Svg`
  holding, in document order, its one background rect, its one group of
  petal paths, and its one center circle.
-/

open Real

/-- Background color constant `BG_COLOR` of the script. -/
def BG_COLOR : String := "#ffdab9"

/-- Output path constant `OUTPUT_PATH` of the script. -/
def OUTPUT_PATH : String := "public/apple-touch-icon.png"

/-- Canvas size constant `SIZE` of the script. -/
def SIZE : ℝ := 180

/-- Embedding of `polar(cx, cy, r, angle_deg)`: rotate the angle by -90
degrees, convert to radians and project.  Source lines 20-23. -/
noncomputable def polar (cx cy r angle_deg : ℝ) : ℝ × ℝ :=
  let rad := (angle_deg - 90) * Real.pi / 180
  (cx + r * Real.cos rad, cy + r * Real.sin rad)

/-- C1: for every center, nonnegative radius and angle, the point returned by
`polar` lies at Euclidean distance `r` from the center (exactly, over the
real-valued embedding). -/
theorem polar_dist (cx cy r θ : ℝ) (hr : 0 ≤ r) :
    Real.sqrt (((polar cx cy r θ).1 - cx) ^ 2 + ((polar cx cy r θ).2 - cy) ^ 2) = r := by
  have hpyth := Real.sin_sq_add_cos_sq ((θ - 90) * Real.pi / 180)
  have hsq : ((polar cx cy r θ).1 - cx) ^ 2 + ((polar cx cy r θ).2 - cy) ^ 2 = r ^ 2 := by
    simp only [polar]
    linear_combination r ^ 2 * hpyth
  rw [hsq, Real.sqrt_sq hr]

/-- Witness for C1 at the concrete input cx = 0, cy = 0, r = 2, θ = 45. -/
theorem polar_dist_witness :
    Real.sqrt (((polar 0 0 2 45).1 - 0) ^ 2 + ((polar 0 0 2 45).2 - 0) ^ 2) = 2 :=
  polar_dist 0 0 2 45 (by norm_num)

/-- C2: the angle convention of `polar`: angle 0 points straight up, so
`polar cx cy r 0 = (cx, cy - r)`, and angles grow clockwise, so
`polar cx cy r 90 = (cx + r, cy)`. -/
theorem polar_angle_convention (cx cy r : ℝ) :
    polar cx cy r 0 = (cx, cy - r) ∧ polar cx cy r 90 = (cx + r, cy) := by
  constructor
  · have hrad : ((0 : ℝ) - 90) * Real.pi / 180 = -(Real.pi / 2) := by ring
    simp only [polar, hrad, Real.cos_neg, Real.sin_neg, Real.cos_pi_div_two,
      Real.sin_pi_div_two, Prod.mk.injEq]
    constructor <;> ring
  · have hrad : ((90 : ℝ) - 90) * Real.pi / 180 = 0 := by ring
    simp only [polar, hrad, Real.cos_zero, Real.sin_zero, Prod.mk.injEq]
    constructor <;> ring

/-- Python round to nearest integer with ties to even (the semantics of
Python 3 `round(x)` with no `ndigits`), applied to an exact rational value. -/
def pyRound (q : ℚ) : ℤ :=
  let f : ℤ := ⌊q⌋
  if q - f < 1 / 2 then f
  else if 1 / 2 < q - f then f + 1
  else if f % 2 = 0 then f else f + 1

/-- Python float modulo `a % b`: `a - b * ⌊a / b⌋` (used by `hsl_to_hex` with
modulus 2). -/
def pymod (a b : ℚ) : ℚ := a - b * ⌊a / b⌋

/-- Lowercase hexadecimal digit character for a value in [0, 15]. -/
def hexDigit (n : ℕ) : Char :=
  if n < 10 then Char.ofNat (48 + n) else Char.ofNat (87 + n)

/-- Hexadecimal digit list of a natural number, most significant digit first;
the first argument is fuel bounding the recursion depth, and the result is
empty on zero. -/
def hexDigitsAux : ℕ → ℕ → List Char
  | 0, _ => []
  | _ + 1, 0 => []
  | fuel + 1, n + 1 => hexDigitsAux fuel ((n + 1) / 16) ++ [hexDigit ((n + 1) % 16)]

/-- Embedding of the Python format spec 02x applied to an int: lowercase
hexadecimal digits, zero-padded to a minimum width of two (a sign, present
only for negative values, counts toward the width, as in Python). -/
def format02x (n : ℤ) : String :=
  let digits := if n.natAbs = 0 then ['0'] else hexDigitsAux n.natAbs n.natAbs
  let sign : List Char := if n < 0 then ['-'] else []
  String.mk (sign ++ List.replicate (2 - (sign.length + digits.length)) '0' ++ digits)

/-- Embedding of `hsl_to_hex(h, s_pct, l_pct)` over exact rationals
(source lines 36-59): chroma / intermediate / match-lightness decomposition,
piecewise selection on the hue sextant, rounding and 02x formatting of the
three channels. -/
def hsl_to_hex (h s_pct l_pct : ℚ) : String :=
  let s := s_pct / 100
  let l := l_pct / 100
  let c := (1 - |2 * l - 1|) * s
  let x := c * (1 - |pymod (h / 60) 2 - 1|)
  let m := l - c / 2
  let rgb : ℚ × ℚ × ℚ :=
    if h < 60 then (c, x, 0)
    else if h < 120 then (x, c, 0)
    else if h < 180 then (0, c, x)
    else if h < 240 then (0, x, c)
    else if h < 300 then (x, 0, c)
    else (c, 0, x)
  "#" ++ format02x (pyRound ((rgb.1 + m) * 255)) ++
    format02x (pyRound ((rgb.2.1 + m) * 255)) ++
    format02x (pyRound ((rgb.2.2 + m) * 255))

/-- Rounding a value that is exactly an integer returns that integer. -/
lemma pyRound_eq_of_intCast (n : ℤ) (q : ℚ) (h : q = (n : ℚ)) : pyRound q = n := by
  subst h
  unfold pyRound
  simp [Int.floor_intCast]

/-- C4: the four reference values of the color converter. -/
theorem hsl_to_hex_reference :
    hsl_to_hex 0 100 50 = "#ff0000" ∧ hsl_to_hex 120 100 50 = "#00ff00" ∧
    hsl_to_hex 0 0 100 = "#ffffff" ∧ hsl_to_hex 0 0 0 = "#000000" := by
  refine ⟨?_, ?_, ?_, ?_⟩ <;>
  · simp only [hsl_to_hex, pymod]
    norm_num [Int.floor_zero, Int.floor_one]
    simp only [pyRound_eq_of_intCast 255 255 (by norm_num),
      pyRound_eq_of_intCast 0 0 (by norm_num)]
    decide

/-- Predicate: the character is a lowercase hexadecimal digit, i.e. one of
0-9 or a-f. -/
def isLowerHexDigit (ch : Char) : Bool :=
  (48 ≤ ch.toNat && ch.toNat ≤ 57) || (97 ≤ ch.toNat && ch.toNat ≤ 102)

/-- Predicate: the string matches the pattern of a hash sign followed by
exactly six lowercase hexadecimal digits. -/
def isHexColor (str : String) : Bool :=
  str.data.take 1 = ['#'] && str.data.length = 7 && (str.data.drop 1).all isLowerHexDigit

/-- Python modulo by 2 is nonnegative. -/
lemma pymod_two_nonneg (a : ℚ) : 0 ≤ pymod a 2 := by
  have h := Int.floor_le (a / 2)
  unfold pymod
  linarith

/-- Python modulo by 2 is below 2. -/
lemma pymod_two_lt (a : ℚ) : pymod a 2 < 2 := by
  have h := Int.lt_floor_add_one (a / 2)
  unfold pymod
  linarith

/-- Rounding never goes below the floor. -/
lemma floor_le_pyRound (q : ℚ) : ⌊q⌋ ≤ pyRound q := by
  simp only [pyRound]
  split_ifs <;> omega

/-- Rounding never goes above the ceiling. -/
lemma pyRound_le_ceil (q : ℚ) : pyRound q ≤ ⌈q⌉ := by
  have hfc := Int.floor_le_ceil q
  simp only [pyRound]
  split_ifs with h1 h2 h3
  · exact hfc
  · exact Int.add_one_le_ceil_iff.mpr (by linarith)
  · exact hfc
  · exact Int.add_one_le_ceil_iff.mpr (by linarith)

/-- Rounding a rational in [0, 255] lands in [0, 255]. -/
lemma pyRound_mem (q : ℚ) (h0 : 0 ≤ q) (h255 : q ≤ 255) :
    0 ≤ pyRound q ∧ pyRound q ≤ 255 := by
  constructor
  · have hf := floor_le_pyRound q
    have h2 : (0 : ℤ) ≤ ⌊q⌋ := Int.le_floor.mpr (by exact_mod_cast h0)
    omega
  · have hc := pyRound_le_ceil q
    have h2 : ⌈q⌉ ≤ 255 := Int.ceil_le.mpr (by exact_mod_cast h255)
    omega

set_option maxRecDepth 4096 in
/-- Exhaustive check: 02x formatting of any integer in [0, 255] yields two
lowercase hexadecimal digits. -/
lemma format02x_fin :
    ∀ n : ℕ, n < 256 → ((format02x n).data.length = 2 &&
      (format02x n).data.all isLowerHexDigit) = true := by
  decide

/-- The 02x formatting of an integer in [0, 255] is two lowercase hexadecimal
digits. -/
lemma format02x_hex (n : ℤ) (h0 : 0 ≤ n) (h255 : n ≤ 255) :
    (format02x n).data.length = 2 ∧ (format02x n).data.all isLowerHexDigit = true := by
  have hlt : n.toNat < 256 := by omega
  have hk := format02x_fin n.toNat hlt
  simp only [Bool.and_eq_true, decide_eq_true_eq] at hk
  rw [← Int.toNat_of_nonneg h0]
  exact hk

/-- Gluing three in-range channels behind a hash sign yields a well-formed
color string. -/
lemma hex_of_channels (i1 i2 i3 : ℤ) (h1 : 0 ≤ i1 ∧ i1 ≤ 255)
    (h2 : 0 ≤ i2 ∧ i2 ≤ 255) (h3 : 0 ≤ i3 ∧ i3 ≤ 255) :
    isHexColor ("#" ++ format02x i1 ++ format02x i2 ++ format02x i3) = true := by
  obtain ⟨hl1, hh1⟩ := format02x_hex i1 h1.1 h1.2
  obtain ⟨hl2, hh2⟩ := format02x_hex i2 h2.1 h2.2
  obtain ⟨hl3, hh3⟩ := format02x_hex i3 h3.1 h3.2
  have hdata : ("#" ++ format02x i1 ++ format02x i2 ++ format02x i3).data
      = '#' :: ((format02x i1).data ++ (format02x i2).data ++ (format02x i3).data) := by
    simp [String.data_append]
  simp only [isHexColor, hdata, List.take_succ_cons, List.take_zero, List.drop_succ_cons,
    List.drop_zero, List.length_cons, List.length_append, List.all_append,
    Bool.and_eq_true, decide_eq_true_eq, hl1, hl2, hl3, hh1, hh2, hh3]
  norm_num

/-- Every normalized channel of the HSL decomposition, shifted by the match
value and scaled to 255, lies in [0, 255]. -/
lemma channel_bounds (sq lq pm : ℚ) (hs0 : 0 ≤ sq) (hs1 : sq ≤ 1)
    (hl0 : 0 ≤ lq) (hl1 : lq ≤ 1) (hpm0 : 0 ≤ pm) (hpm2 : pm < 2) :
    ∀ v : ℚ, (v = (1 - |2 * lq - 1|) * sq ∨
        v = (1 - |2 * lq - 1|) * sq * (1 - |pm - 1|) ∨ v = 0) →
      0 ≤ (v + (lq - (1 - |2 * lq - 1|) * sq / 2)) * 255 ∧
        (v + (lq - (1 - |2 * lq - 1|) * sq / 2)) * 255 ≤ 255 := by
  intro v hv
  have hy1 : |2 * lq - 1| ≤ 1 := abs_le.mpr ⟨by linarith, by linarith⟩
  have hylb : -(2 * lq - 1) ≤ |2 * lq - 1| := neg_le_abs _
  have hyub : 2 * lq - 1 ≤ |2 * lq - 1| := le_abs_self _
  have ht0 : 0 ≤ |pm - 1| := abs_nonneg _
  have ht1 : |pm - 1| ≤ 1 := abs_le.mpr ⟨by linarith, by linarith⟩
  have hc0 : 0 ≤ (1 - |2 * lq - 1|) * sq := mul_nonneg (by linarith) hs0
  have hcle : (1 - |2 * lq - 1|) * sq ≤ 1 - |2 * lq - 1| :=
    mul_le_of_le_one_right (by linarith) hs1
  have hx0 : 0 ≤ (1 - |2 * lq - 1|) * sq * (1 - |pm - 1|) :=
    mul_nonneg hc0 (by linarith)
  have hxc : (1 - |2 * lq - 1|) * sq * (1 - |pm - 1|) ≤ (1 - |2 * lq - 1|) * sq :=
    mul_le_of_le_one_right hc0 (by linarith)
  rcases hv with rfl | rfl | rfl
  · constructor <;> linarith
  · constructor <;> linarith
  · constructor <;> linarith

/-- C3: for hue in [0, 360) and saturation and lightness in [0, 100], the
color converter returns a hash sign followed by exactly six lowercase
hexadecimal digits. -/
theorem hsl_to_hex_pattern (h s_pct l_pct : ℚ) (hh0 : 0 ≤ h) (hh1 : h < 360)
    (hs0 : 0 ≤ s_pct) (hs1 : s_pct ≤ 100) (hl0 : 0 ≤ l_pct) (hl1 : l_pct ≤ 100) :
    isHexColor (hsl_to_hex h s_pct l_pct) = true := by
  have hb := channel_bounds (s_pct / 100) (l_pct / 100) (pymod (h / 60) 2)
    (by linarith) (by linarith) (by linarith) (by linarith)
    (pymod_two_nonneg _) (pymod_two_lt _)
  have hcb := hb _ (Or.inl rfl)
  have hxb := hb _ (Or.inr (Or.inl rfl))
  have hzb := hb _ (Or.inr (Or.inr rfl))
  simp only [hsl_to_hex]
  split_ifs
  · exact hex_of_channels _ _ _ (pyRound_mem _ hcb.1 hcb.2)
      (pyRound_mem _ hxb.1 hxb.2) (pyRound_mem _ hzb.1 hzb.2)
  · exact hex_of_channels _ _ _ (pyRound_mem _ hxb.1 hxb.2)
      (pyRound_mem _ hcb.1 hcb.2) (pyRound_mem _ hzb.1 hzb.2)
  · exact hex_of_channels _ _ _ (pyRound_mem _ hzb.1 hzb.2)
      (pyRound_mem _ hcb.1 hcb.2) (pyRound_mem _ hxb.1 hxb.2)
  · exact hex_of_channels _ _ _ (pyRound_mem _ hzb.1 hzb.2)
      (pyRound_mem _ hxb.1 hxb.2) (pyRound_mem _ hcb.1 hcb.2)
  · exact hex_of_channels _ _ _ (pyRound_mem _ hxb.1 hxb.2)
      (pyRound_mem _ hzb.1 hzb.2) (pyRound_mem _ hcb.1 hcb.2)
  · exact hex_of_channels _ _ _ (pyRound_mem _ hcb.1 hcb.2)
      (pyRound_mem _ hzb.1 hzb.2) (pyRound_mem _ hxb.1 hxb.2)

/-- Witness for C3 at the concrete input h = 30, s = 70, l = 50. -/
theorem hsl_to_hex_pattern_witness : isHexColor (hsl_to_hex 30 70 50) = true :=
  hsl_to_hex_pattern 30 70 50 (by norm_num) (by norm_num) (by norm_num)
    (by norm_num) (by norm_num) (by norm_num)

/-- Representation of a petal path string `M cx cy C c1x c1y c2x c2y ex ey`:
the start point of the move command, the two control points of the single
cubic-curve command, and the end point; the decimal rendering of the
coordinates is abstracted away. -/
structure PetalPath where
  startX : ℝ
  startY : ℝ
  c1x : ℝ
  c1y : ℝ
  c2x : ℝ
  c2y : ℝ
  endX : ℝ
  endY : ℝ

/-- Embedding of `make_petal_path(cx, cy, petal_width, angle)` (source lines
26-33): one cubic curve from the center through two control points offset
±20 degrees from the central angle at the petal radius, back to the
center. -/
noncomputable def make_petal_path (cx cy petal_width angle : ℝ) : PetalPath :=
  let c1 := polar cx cy petal_width (angle - 20)
  let c2 := polar cx cy petal_width (angle + 20)
  { startX := cx, startY := cy
    c1x := c1.1, c1y := c1.2
    c2x := c2.1, c2y := c2.2
    endX := cx, endY := cy }

/-- C5: a petal path is one cubic-curve command that starts and ends at the
center, its first control point is `polar` at the angle minus 20 degrees and
its second control point `polar` at the angle plus 20 degrees; nothing is
validated, and a zero radius degenerates every point of the curve to the
center instead of failing. -/
theorem make_petal_path_spec (cx cy petal_width angle : ℝ) :
    (make_petal_path cx cy petal_width angle).startX = cx ∧
    (make_petal_path cx cy petal_width angle).startY = cy ∧
    (make_petal_path cx cy petal_width angle).endX = cx ∧
    (make_petal_path cx cy petal_width angle).endY = cy ∧
    ((make_petal_path cx cy petal_width angle).c1x,
      (make_petal_path cx cy petal_width angle).c1y) =
      polar cx cy petal_width (angle - 20) ∧
    ((make_petal_path cx cy petal_width angle).c2x,
      (make_petal_path cx cy petal_width angle).c2y) =
      polar cx cy petal_width (angle + 20) ∧
    make_petal_path cx cy 0 angle =
      { startX := cx, startY := cy, c1x := cx, c1y := cy, c2x := cx, c2y := cy,
        endX := cx, endY := cy } := by
  refine ⟨rfl, rfl, rfl, rfl, rfl, rfl, ?_⟩
  simp [make_petal_path, polar]

/-- Canvas center x coordinate computed by `main`. -/
noncomputable def main_cx : ℝ := SIZE / 2

/-- Canvas center y coordinate computed by `main`. -/
noncomputable def main_cy : ℝ := SIZE / 2

/-- Petal count of `main`. -/
def main_petals : ℕ := 8

/-- Petal radius of `main`. -/
noncomputable def main_petal_width : ℝ := 80

/-- Center circle radius of `main`: 14 percent of the petal radius. -/
noncomputable def main_center_radius : ℝ := main_petal_width * 0.14

/-- Petal hue of `main`. -/
def hue_flower : ℚ := 30

/-- Center hue of `main`: the petal hue minus 20. -/
def hue_center : ℚ := hue_flower - 20

/-- Petal color of `main`. -/
def petal_color : String := hsl_to_hex hue_flower 70 50

/-- Center circle color of `main`. -/
def center_color : String := hsl_to_hex hue_center 65 45

/-- Angular step of `main`: 360 degrees divided by the petal count. -/
noncomputable def main_segment : ℝ := 360 / (main_petals : ℝ)

/-- Starting angular offset of `main`. -/
noncomputable def main_starting_angle : ℝ := 0

/-- Petal angle of `main` for index `j`. -/
noncomputable def main_angle (j : ℕ) : ℝ := main_segment * j + main_starting_angle

/-- The list `paths` built by `main`: one petal path per petal index. -/
noncomputable def main_paths : List PetalPath :=
  (List.range main_petals).map
    (fun j => make_petal_path main_cx main_cy main_petal_width (main_angle j))

/-- Representation of the SVG document assembled by `main` (source lines
83-91): canvas size, the one full-canvas background rect, the one group of
petal paths with fill, stroke and stroke width, and the one center circle. -/
structure Svg where
  width : ℝ
  height : ℝ
  rectW : String
  rectH : String
  rectFill : String
  groupFill : String
  groupStroke : String
  groupStrokeWidth : ℝ
  groupPaths : List PetalPath
  circleCx : ℝ
  circleCy : ℝ
  circleR : ℝ
  circleFill : String

/-- The SVG document value assembled by `main`. -/
noncomputable def main_svg : Svg :=
  { width := SIZE, height := SIZE
    rectW := "100%", rectH := "100%", rectFill := BG_COLOR
    groupFill := petal_color, groupStroke := petal_color, groupStrokeWidth := 2
    groupPaths := main_paths
    circleCx := main_cx, circleCy := main_cy
    circleR := main_center_radius, circleFill := center_color }

/-- Distinct angles less than a full turn apart map to distinct points under
`polar` with a nonzero radius. -/
lemma polar_ne (cx cy r θ₁ θ₂ : ℝ) (hr : r ≠ 0) (hne : θ₁ ≠ θ₂)
    (hwin : |θ₁ - θ₂| < 360) : polar cx cy r θ₁ ≠ polar cx cy r θ₂ := by
  intro heq
  have hpi := Real.pi_pos
  have h1 : r * Real.cos ((θ₁ - 90) * Real.pi / 180)
      = r * Real.cos ((θ₂ - 90) * Real.pi / 180) := by
    have hfst := congrArg Prod.fst heq
    simp only [polar] at hfst
    linarith
  have h2 : r * Real.sin ((θ₁ - 90) * Real.pi / 180)
      = r * Real.sin ((θ₂ - 90) * Real.pi / 180) := by
    have hsnd := congrArg Prod.snd heq
    simp only [polar] at hsnd
    linarith
  have hcos := mul_left_cancel₀ hr h1
  have hsin := mul_left_cancel₀ hr h2
  have hone : Real.cos ((θ₁ - 90) * Real.pi / 180 - (θ₂ - 90) * Real.pi / 180) = 1 := by
    rw [Real.cos_sub, hcos, hsin]
    linear_combination Real.sin_sq_add_cos_sq ((θ₂ - 90) * Real.pi / 180)
  obtain ⟨n, hn⟩ := (Real.cos_eq_one_iff _).mp hone
  have hdiff : (θ₁ - 90) * Real.pi / 180 - (θ₂ - 90) * Real.pi / 180
      = (θ₁ - θ₂) * (Real.pi / 180) := by ring
  have key : |(θ₁ - θ₂) * (Real.pi / 180)| < 2 * Real.pi := by
    rw [abs_mul, abs_of_pos (show (0 : ℝ) < Real.pi / 180 by positivity)]
    calc |θ₁ - θ₂| * (Real.pi / 180) < 360 * (Real.pi / 180) :=
          mul_lt_mul_of_pos_right hwin (by positivity)
      _ = 2 * Real.pi := by ring
  have habs2 : |(n : ℝ)| * (2 * Real.pi) < 2 * Real.pi := by
    have habs1 : |(n : ℝ) * (2 * Real.pi)| < 2 * Real.pi := by
      rw [hn, hdiff]
      exact key
    rwa [abs_mul, abs_of_pos (show (0 : ℝ) < 2 * Real.pi by linarith)] at habs1
  have habs3 : |(n : ℝ)| * (2 * Real.pi) < 1 * (2 * Real.pi) := by linarith
  have hn1 : |(n : ℝ)| < 1 := lt_of_mul_lt_mul_right habs3 (by linarith)
  have hn0 : n = 0 := by
    have hcast : |n| < 1 := by exact_mod_cast hn1
    obtain ⟨hlo, hhi⟩ := abs_lt.mp hcast
    omega
  have hzero : (θ₁ - θ₂) * (Real.pi / 180) = 0 := by
    rw [← hdiff, ← hn, hn0]
    norm_num
  rcases mul_eq_zero.mp hzero with h | h
  · exact hne (by linarith)
  · have : (0 : ℝ) < Real.pi / 180 := by positivity
    linarith

/-- Petal paths of `main` at two distinct indices below 8 differ: their first
control points sit at distinct angles less than a full turn apart. -/
lemma main_path_inj (j k : ℕ) (hj : j < 8) (hk : k < 8) (hne : j ≠ k) :
    make_petal_path main_cx main_cy main_petal_width (main_angle j) ≠
      make_petal_path main_cx main_cy main_petal_width (main_angle k) := by
  intro heq
  have hc1x := congrArg PetalPath.c1x heq
  have hc1y := congrArg PetalPath.c1y heq
  have hpoint : polar main_cx main_cy main_petal_width (main_angle j - 20)
      = polar main_cx main_cy main_petal_width (main_angle k - 20) :=
    Prod.ext hc1x hc1y
  refine polar_ne main_cx main_cy main_petal_width (main_angle j - 20)
    (main_angle k - 20) ?_ ?_ ?_ hpoint
  · norm_num [main_petal_width]
  · have hjk : (j : ℝ) ≠ k := by exact_mod_cast hne
    simp only [main_angle, main_segment, main_starting_angle, main_petals]
    intro hcontra
    apply hjk
    push_cast at hcontra
    linarith
  · have hj7 : (j : ℝ) ≤ 7 := by exact_mod_cast Nat.lt_succ_iff.mp hj
    have hk7 : (k : ℝ) ≤ 7 := by exact_mod_cast Nat.lt_succ_iff.mp hk
    have hj0 : (0 : ℝ) ≤ j := Nat.cast_nonneg j
    have hk0 : (0 : ℝ) ≤ k := Nat.cast_nonneg k
    simp only [main_angle, main_segment, main_starting_angle, main_petals]
    rw [abs_lt]
    push_cast
    constructor <;> linarith

/-- C6: the 8 petal paths the driver builds at its 8 evenly spaced angles are
pairwise distinct, and each one is a single cubic-curve command starting and
ending at the given center. -/
theorem main_paths_distinct :
    main_paths.Pairwise (fun p q => p ≠ q) ∧
    List.Forall (fun p => p.startX = main_cx ∧ p.startY = main_cy ∧
      p.endX = main_cx ∧ p.endY = main_cy) main_paths := by
  constructor
  · have hnodup : main_paths.Nodup := by
      simp only [main_paths]
      refine List.Nodup.map_on ?_ (List.nodup_range _)
      intro j hj k hk hjk
      by_contra hne
      exact main_path_inj j k (List.mem_range.mp hj) (List.mem_range.mp hk) hne hjk
    exact hnodup
  · rw [List.forall_iff_forall_mem]
    intro p hp
    simp only [main_paths, List.mem_map] at hp
    obtain ⟨j, hj, rfl⟩ := hp
    exact ⟨rfl, rfl, rfl, rfl⟩

/-- C7: the document assembled by the driver: a 180×180 canvas, one
full-canvas background rect filled with the background color, one group of
exactly 8 petal paths filled and stroked with the petal color
`hsl_to_hex 30 70 50`, and one circle at the canvas center (90, 90) with
radius 0.14 * 80 filled with the center color `hsl_to_hex 10 65 45`. -/
theorem main_svg_spec :
    main_svg.width = 180 ∧ main_svg.height = 180 ∧
    main_svg.rectW = "100%" ∧ main_svg.rectH = "100%" ∧
    main_svg.rectFill = BG_COLOR ∧
    main_svg.groupPaths.length = 8 ∧
    main_svg.groupFill = hsl_to_hex 30 70 50 ∧
    main_svg.groupStroke = hsl_to_hex 30 70 50 ∧
    main_svg.circleCx = 90 ∧ main_svg.circleCy = 90 ∧
    main_svg.circleR = 0.14 * 80 ∧
    main_svg.circleFill = hsl_to_hex 10 65 45 := by
  refine ⟨rfl, rfl, rfl, rfl, rfl, ?_, rfl, rfl, ?_, ?_, ?_, ?_⟩
  · show main_paths.length = 8
    simp [main_paths, main_petals]
  · show main_cx = 90
    norm_num [main_cx, SIZE]
  · show main_cy = 90
    norm_num [main_cy, SIZE]
  · show main_center_radius = 0.14 * 80
    norm_num [main_center_radius, main_petal_width]
  · show center_color = hsl_to_hex 10 65 45
    norm_num [center_color, hue_center, hue_flower]

/-- Model of the ambient inputs a run could observe: command-line arguments,
environment variables, standard input, and a random seed.  The script reads
none of them while assembling the document. -/
structure Env where
  argv : List String
  environ : List (String × String)
  stdinLines : List String
  randomSeed : ℕ

/-- The SVG document `main` assembles, as a function of the ambient inputs:
the assembly is a closed computation over the fixed configuration constants
and reads nothing from the environment. -/
noncomputable def main_svg_of (env : Env) : Svg := main_svg

/-- C9: determinism of the assembly: whatever ambient inputs two runs see,
they produce the identical vector markup document. -/
theorem main_svg_deterministic (e₁ e₂ : Env) : main_svg_of e₁ = main_svg_of e₂ := rfl

/-- Coordinates of `polar` at the driver's center and radius stay within
[10, 170] on both axes. -/
lemma polar_bounds (θ : ℝ) :
    (10 ≤ (polar main_cx main_cy main_petal_width θ).1 ∧
      (polar main_cx main_cy main_petal_width θ).1 ≤ 170) ∧
    (10 ≤ (polar main_cx main_cy main_petal_width θ).2 ∧
      (polar main_cx main_cy main_petal_width θ).2 ≤ 170) := by
  have hc1 := Real.neg_one_le_cos ((θ - 90) * Real.pi / 180)
  have hc2 := Real.cos_le_one ((θ - 90) * Real.pi / 180)
  have hs1 := Real.neg_one_le_sin ((θ - 90) * Real.pi / 180)
  have hs2 := Real.sin_le_one ((θ - 90) * Real.pi / 180)
  simp only [polar, main_cx, main_cy, main_petal_width, SIZE]
  refine ⟨⟨?_, ?_⟩, ?_, ?_⟩ <;> nlinarith

/-- C10: every control point of every petal path the driver builds lies in
[10, 170] on both axes, hence strictly inside the 180×180 canvas. -/
theorem main_paths_in_canvas :
    List.Forall (fun p => (10 ≤ p.c1x ∧ p.c1x ≤ 170) ∧ (10 ≤ p.c1y ∧ p.c1y ≤ 170) ∧
      (10 ≤ p.c2x ∧ p.c2x ≤ 170) ∧ (10 ≤ p.c2y ∧ p.c2y ≤ 170)) main_paths := by
  rw [List.forall_iff_forall_mem]
  intro p hp
  simp only [main_paths, List.mem_map] at hp
  obtain ⟨j, hj, rfl⟩ := hp
  exact ⟨(polar_bounds (main_angle j - 20)).1,
    (polar_bounds (main_angle j - 20)).2,
    (polar_bounds (main_angle j + 20)).1,
    (polar_bounds (main_angle j + 20)).2⟩

/-- Whether `pat` is an initial segment of `s`. -/
def listStarts : List Char → List Char → Bool
  | [], _ => true
  | _ :: _, [] => false
  | p :: ps, ch :: cs => p == ch && listStarts ps cs

/-- Replacement of every non-overlapping occurrence of `pat` by `rep`,
scanning left to right; the numeric argument is fuel bounding the scan, and
the function agrees with Python `str.replace` for a nonempty pattern. -/
def replaceAux (rep pat : List Char) : ℕ → List Char → List Char
  | 0, s => s
  | fuel + 1, s =>
    match s with
    | [] => []
    | ch :: rest =>
      if listStarts pat (ch :: rest) then
        rep ++ replaceAux rep pat fuel ((ch :: rest).drop pat.length)
      else ch :: replaceAux rep pat fuel rest

/-- Embedding of Python `s.replace(pat, rep)` for a nonempty pattern. -/
def pyReplace (s pat rep : String) : String :=
  String.mk (replaceAux rep.data pat.data s.data.length s.data)

/-- Exceptions the rasterization attempt can raise in the model: the import
of the rasterization collaborator failing, or any other error. -/
inductive PyExc
  | importError
  | other

/-- Outcome of a run of the tail of `main` (source lines 95-109): a raster
written to a path, the vector document written to a path, or an exception
propagated out of `main`. -/
inductive RunResult
  | rasterWritten (path : String)
  | vectorWritten (path : String) (content : Svg)
  | raised (e : PyExc)

/-- Whether the outcome is a normal completion rather than a propagated
exception. -/
def RunResult.isNormal : RunResult → Bool
  | .raised _ => false
  | _ => true

/-- Embedding of the try/except at the end of `main` (source lines 95-109):
the try body attempts to rasterize to `OUTPUT_PATH` and the argument is the
exception it raises, if any; only an import error is caught, and its handler
writes the SVG document to the sibling path with the vector extension; any
other exception propagates. -/
noncomputable def main_run (exc : Option PyExc) : RunResult :=
  match exc with
  | none => .rasterWritten OUTPUT_PATH
  | some .importError => .vectorWritten (pyReplace OUTPUT_PATH ".png" ".svg") main_svg
  | some .other => .raised .other

/-- C8: the vector fallback happens exactly on an import error, writing the
document verbatim to `public/apple-touch-icon.svg`; without an exception the
raster is written to the configured path; both of those complete normally;
any other exception propagates. -/
theorem main_run_spec :
    main_run (some .importError) =
      .vectorWritten "public/apple-touch-icon.svg" main_svg ∧
    main_run none = .rasterWritten OUTPUT_PATH ∧
    main_run (some .other) = .raised .other ∧
    (∀ exc, (∃ p v, main_run exc = .vectorWritten p v) ↔ exc = some .importError) ∧
    (∀ exc, (main_run exc).isNormal = true ↔ exc ≠ some .other) := by
  have hpath : pyReplace OUTPUT_PATH ".png" ".svg" = "public/apple-touch-icon.svg" := by
    decide
  refine ⟨by rw [main_run, hpath], rfl, rfl, ?_, ?_⟩
  · rintro (_ | e)
    · simp [main_run]
    · cases e <;> simp [main_run]
  · rintro (_ | e)
    · simp [main_run, RunResult.isNormal]
    · cases e <;> simp [main_run, RunResult.isNormal]
